import Mathlib

/-!
# Song library: repository, service and HTTP handlers

A shallow embedding of `internal/model`, `internal/repository`, `internal/service` and
`internal/handler`.

The repository talks to its database only through five GORM calls on the `songs` table
(`Find`, `First`, `Create`, `Updates`, `Delete`).  GORM and the SQL engine are libraries, so
they are represented by a small executable model (namespace `gorm`): the table is a list of
rows, one per key, together with the auto-increment counter of the key column and the reading
of the wall clock that `NowFunc` returns.  The engine followed is SQLite, on which the
repository's own tests run.

Limits of the model, which the statements below respect:
* an id text is read as a key only when it is a decimal numeral; other spellings of a number
  that the engine also converts (a sign, blanks around it, a fraction, an exponent) are not
  read, so every statement about an id takes a numeral;
* keys are natural numbers without the bound of the 64-bit key column, so an insert never runs
  out of keys; statements about `AddSong` are made for calls that return nil;
* rows are kept in insertion order; no statement depends on the order of `GetSongs`;
* storage failures other than a key conflict (lost connection, full disk) are not produced.
-/

namespace SongLibrary

/-- Instants of `time.Time`, counted from the zero instant; `0` is the value `IsZero` accepts. -/
abbrev Time := Nat

/-- Values of Go's `error` interface that reach the repository's callers: the sentinel
`gorm.ErrRecordNotFound`, or any other error, known by its message. -/
inductive GoError where
  | ErrRecordNotFound
  | other (msg : String)
deriving DecidableEq, Repr

/-- The method `Error() string`. -/
def GoError.Error : GoError → String
  | .ErrRecordNotFound => "record not found"
  | .other msg => msg

namespace model

/-- The struct `model.Song`; every field defaults to its Go zero value, as in a composite
literal that leaves the field out. -/
structure Song where
  ID : Nat := 0
  GroupName : String := ""
  SongName : String := ""
  ReleaseDate : Time := 0
  Text : String := ""
  Link : String := ""
  CreatedAt : Time := 0
  UpdatedAt : Time := 0
deriving DecidableEq, Repr

end model

open model

namespace gorm

/-- The database behind a `*gorm.DB` handle, restricted to the `songs` table: its rows in store
order, the auto-increment counter of the key column (the largest key ever inserted), and the
instant `NowFunc` returns. -/
structure DB where
  rows : List Song := []
  seq : Nat := 0
  now : Time := 0
deriving DecidableEq, Repr

/-- Value of a decimal digit, if the character is one. -/
def digit? (c : Char) : Option Nat :=
  if 48 ≤ c.toNat ∧ c.toNat ≤ 57 then some (c.toNat - 48) else none

/-- Reads the digits in `cs` after the digits already read as `acc`. -/
def parseDigits : List Char → Nat → Option Nat
  | [], acc => some acc
  | c :: cs, acc =>
    match digit? c with
    | some d => parseDigits cs (acc * 10 + d)
    | none => none

/-- The key denoted by a decimal numeral bound to `?` in `"id = ?"`: the engine compares the
integer key column with the number the numeral converts to.  Only decimal numerals are read;
for any other text the result is `none`, although the engine converts some such texts to a
number as well, so statements are made for ids on which this function returns a key. -/
def parseID (id : String) : Option Nat :=
  match id.data with
  | [] => none
  | c :: cs => parseDigits (c :: cs) 0

/-- The condition `"id = ?"` with argument `id`, evaluated on a row. -/
def whereID (id : String) (r : Song) : Bool :=
  parseID id == some r.ID

/-- Largest key among the rows, `0` for an empty table. -/
def maxKey (rows : List Song) : Nat :=
  rows.foldr (fun r m => max r.ID m) 0

/-- The driver's error for a second row with a key already in the table. -/
def uniqueViolation : GoError :=
  .other "UNIQUE constraint failed: songs.id"

/-- The call `db.Find(&songs)`: every row of the table. -/
def DB.Find (db : DB) : List Song × Option GoError :=
  (db.rows, none)

/-- The call `db.First(&song, "id = ?", id)`: the first row satisfying the condition, or
`ErrRecordNotFound` (and `song` left at its zero value) when there is none. -/
def DB.First (db : DB) (id : String) : Song × Option GoError :=
  match db.rows.find? (whereID id) with
  | some r => (r, none)
  | none => ({}, some .ErrRecordNotFound)

/-- The timestamps GORM fills in before an insert: a zero `CreatedAt` or `UpdatedAt` becomes
the current time, a non-zero one is kept. -/
def stamp (now : Time) (song : Song) : Song :=
  { song with
    CreatedAt := if song.CreatedAt = 0 then now else song.CreatedAt
    UpdatedAt := if song.UpdatedAt = 0 then now else song.UpdatedAt }

/-- The call `db.Create(song)`.  A zero `ID` is left to the auto-increment key column, which
takes the successor of the largest key ever held, and is written back into `song`; a non-zero
`ID` is inserted as given and fails when the key is taken.  The first component is `song` as
the call leaves it.  Keys are not bounded here, so the failure of the engine once the largest
key of the 64-bit column has been used does not occur. -/
def DB.Create (db : DB) (song : Song) : (Song × Option GoError) × DB :=
  let song := stamp db.now song
  if song.ID = 0 then
    let k := max db.seq (maxKey db.rows) + 1
    let row := { song with ID := k }
    ((row, none), { db with rows := db.rows ++ [row], seq := k })
  else if db.rows.any (fun r => r.ID == song.ID) then
    ((song, some uniqueViolation), db)
  else
    ((song, none), { db with rows := db.rows ++ [song], seq := max db.seq song.ID })

/-- The assignments of `Updates(song)` with a struct argument applied to one row: every
non-zero field of `song` (the key included, since `song` is not the statement's model)
replaces the column, and `updated_at` is always set to the current time. -/
def assign (now : Time) (song row : Song) : Song :=
  { ID := if song.ID = 0 then row.ID else song.ID
    GroupName := if song.GroupName = "" then row.GroupName else song.GroupName
    SongName := if song.SongName = "" then row.SongName else song.SongName
    ReleaseDate := if song.ReleaseDate = 0 then row.ReleaseDate else song.ReleaseDate
    Text := if song.Text = "" then row.Text else song.Text
    Link := if song.Link = "" then row.Link else song.Link
    CreatedAt := if song.CreatedAt = 0 then row.CreatedAt else song.CreatedAt
    UpdatedAt := now }

/-- The call `db.Model(&model.Song{}).Where("id = ?", id).Updates(song)`: every row satisfying
the condition is rewritten by `assign`.  The statement fails, changing nothing, when a rewritten
row would take the key of a row that is not rewritten.  No row satisfying the condition is not
an error. -/
def DB.Updates (db : DB) (id : String) (song : Song) : Option GoError × DB :=
  if song.ID ≠ 0 ∧ db.rows.any (whereID id) ∧
      db.rows.any (fun r => !whereID id r && r.ID == song.ID) then
    (some uniqueViolation, db)
  else
    (none, { db with rows := db.rows.map fun r => if whereID id r then assign db.now song r else r })

/-- The call `db.Delete(&model.Song{}, "id = ?", id)`: every row satisfying the condition is
removed.  No row satisfying the condition is not an error. -/
def DB.Delete (db : DB) (id : String) : Option GoError × DB :=
  (none, { db with rows := db.rows.filter fun r => !whereID id r })

end gorm

namespace repository

open gorm

/-- The interface `SongRepository`, for an implementation whose state has type `σ`.  A method
with a pointer argument returns the pointee as the call leaves it. -/
structure SongRepository (σ : Type) where
  GetSongs : σ → (List Song × Option GoError) × σ
  GetSongByID : String → σ → (Option Song × Option GoError) × σ
  AddSong : Song → σ → (Song × Option GoError) × σ
  UpdateSong : String → Song → σ → (Song × Option GoError) × σ
  DeleteSong : String → σ → Option GoError × σ

/-- Method `(*songRepository).GetSongs`. -/
def songRepository.GetSongs (db : DB) : (List Song × Option GoError) × DB :=
  match db.Find with
  | (_, some err) => (([], some err), db)
  | (songs, none) => ((songs, none), db)

/-- Method `(*songRepository).GetSongByID`. -/
def songRepository.GetSongByID (id : String) (db : DB) : (Option Song × Option GoError) × DB :=
  match db.First id with
  | (_, some err) => ((none, some err), db)
  | (song, none) => ((some song, none), db)

/-- Method `(*songRepository).AddSong`. -/
def songRepository.AddSong (song : Song) (db : DB) : (Song × Option GoError) × DB :=
  db.Create song

/-- Method `(*songRepository).UpdateSong`; `Updates` does not write to its argument. -/
def songRepository.UpdateSong (id : String) (song : Song) (db : DB) :
    (Song × Option GoError) × DB :=
  let (err, db) := db.Updates id song
  ((song, err), db)

/-- Method `(*songRepository).DeleteSong`. -/
def songRepository.DeleteSong (id : String) (db : DB) : Option GoError × DB :=
  db.Delete id

/-- The constructor `NewSongRepository`. -/
def NewSongRepository : SongRepository DB where
  GetSongs := songRepository.GetSongs
  GetSongByID := songRepository.GetSongByID
  AddSong := songRepository.AddSong
  UpdateSong := songRepository.UpdateSong
  DeleteSong := songRepository.DeleteSong

end repository

namespace service

open repository

/-- The struct `SongService`. -/
structure SongService (σ : Type) where
  repo : SongRepository σ

/-- The constructor `NewSongService`. -/
def NewSongService {σ : Type} (repo : SongRepository σ) : SongService σ :=
  { repo := repo }

/-- Method `(*SongService).GetSongs`. -/
def SongService.GetSongs {σ : Type} (s : SongService σ) : σ → (List Song × Option GoError) × σ :=
  s.repo.GetSongs

/-- Method `(*SongService).GetSongByID`. -/
def SongService.GetSongByID {σ : Type} (s : SongService σ) (id : String) :
    σ → (Option Song × Option GoError) × σ :=
  s.repo.GetSongByID id

/-- Method `(*SongService).AddSong`. -/
def SongService.AddSong {σ : Type} (s : SongService σ) (song : Song) :
    σ → (Song × Option GoError) × σ :=
  s.repo.AddSong song

/-- Method `(*SongService).UpdateSong`. -/
def SongService.UpdateSong {σ : Type} (s : SongService σ) (id : String) (song : Song) :
    σ → (Song × Option GoError) × σ :=
  s.repo.UpdateSong id song

/-- Method `(*SongService).DeleteSong`. -/
def SongService.DeleteSong {σ : Type} (s : SongService σ) (id : String) :
    σ → Option GoError × σ :=
  s.repo.DeleteSong id

end service

namespace handler

open service

/-- The struct `ErrorResponse`. -/
structure ErrorResponse where
  Error : String
  Details : String := ""
deriving DecidableEq, Repr

/-- The values the handlers store in `SuccessResponse.Data`: a slice of songs, a pointer to a
song (possibly nil), a song, or a `gin.H` map. -/
inductive Data where
  | songs (list : List Song)
  | songRef (ptr : Option Song)
  | song (value : Song)
  | H (entries : List (String × String))
deriving DecidableEq, Repr

/-- The struct `SuccessResponse`. -/
structure SuccessResponse where
  Data : Data
deriving DecidableEq, Repr

/-- The object handed to `c.JSON`. -/
inductive Body where
  | failure (obj : ErrorResponse)
  | success (obj : SuccessResponse)
deriving DecidableEq, Repr

/-- The effect of the single `c.JSON(status, obj)` call a handler makes. -/
structure Response where
  status : Nat
  body : Body
deriving DecidableEq, Repr

/-- What a handler reads from its `*gin.Context`: the path parameter `c.Param("id")` and the
outcome of `c.ShouldBindJSON(&song)` on the request body, either the error of the decoder or
the song it filled in.  A request without a parameter or a body has the parameter empty and
the decoder failing at the end of input. -/
structure Context where
  id : String := ""
  body : Except GoError Song := .error (.other "EOF")

def StatusOK : Nat := 200
def StatusCreated : Nat := 201
def StatusBadRequest : Nat := 400
def StatusInternalServerError : Nat := 500

/-- Handler `GetSongs`. -/
def GetSongs {σ : Type} (songService : SongService σ) (_c : Context) (st : σ) : Response × σ :=
  match songService.GetSongs st with
  | ((_, some err), st) =>
    (⟨StatusInternalServerError,
      .failure { Error := "Failed to retrieve songs", Details := err.Error }⟩, st)
  | ((songs, none), st) => (⟨StatusOK, .success { Data := .songs songs }⟩, st)

/-- Handler `GetSongByID`. -/
def GetSongByID {σ : Type} (songService : SongService σ) (c : Context) (st : σ) :
    Response × σ :=
  let id := c.id
  match songService.GetSongByID id st with
  | ((_, some err), st) =>
    (⟨StatusInternalServerError,
      .failure { Error := "Failed to retrieve song", Details := err.Error }⟩, st)
  | ((song, none), st) => (⟨StatusOK, .success { Data := .songRef song }⟩, st)

/-- Handler `AddSong`. -/
def AddSong {σ : Type} (songService : SongService σ) (c : Context) (st : σ) : Response × σ :=
  match c.body with
  | .error err =>
    (⟨StatusBadRequest,
      .failure { Error := "Invalid request payload", Details := err.Error }⟩, st)
  | .ok song =>
    match songService.AddSong song st with
    | ((_, some err), st) =>
      (⟨StatusInternalServerError,
        .failure { Error := "Failed to add song", Details := err.Error }⟩, st)
    | ((song, none), st) => (⟨StatusCreated, .success { Data := .song song }⟩, st)

/-- Handler `UpdateSong`. -/
def UpdateSong {σ : Type} (songService : SongService σ) (c : Context) (st : σ) :
    Response × σ :=
  let id := c.id
  match c.body with
  | .error err =>
    (⟨StatusBadRequest,
      .failure { Error := "Invalid request payload", Details := err.Error }⟩, st)
  | .ok song =>
    match songService.UpdateSong id song st with
    | ((_, some err), st) =>
      (⟨StatusInternalServerError,
        .failure { Error := "Failed to update song", Details := err.Error }⟩, st)
    | ((song, none), st) => (⟨StatusOK, .success { Data := .song song }⟩, st)

/-- Handler `DeleteSong`. -/
def DeleteSong {σ : Type} (songService : SongService σ) (c : Context) (st : σ) :
    Response × σ :=
  let id := c.id
  match songService.DeleteSong id st with
  | (some err, st) =>
    (⟨StatusInternalServerError,
      .failure { Error := "Failed to delete song", Details := err.Error }⟩, st)
  | (none, st) =>
    (⟨StatusOK, .success { Data := .H [("message", "Song deleted successfully")] }⟩, st)

end handler

/-! ## Observations used in the statements -/

namespace gorm

/-- The table read as a finite map: the record stored under key `k`, if any. -/
def DB.get (db : DB) (k : Nat) : Option Song :=
  db.rows.find? fun r => r.ID == k

/-- The keys of the table, in store order. -/
def DB.keys (db : DB) : List Nat :=
  db.rows.map fun r => r.ID

/-- No row of the table satisfies `"id = ?"` with argument `id`. -/
def DB.absent (db : DB) (id : String) : Prop :=
  ∀ r ∈ db.rows, whereID id r = false

instance (db : DB) (id : String) : Decidable (db.absent id) :=
  inferInstanceAs (Decidable (∀ r ∈ db.rows, whereID id r = false))

/-- A table holding one song under key `1`. -/
def oneSong : DB :=
  { rows := [{ ID := 1, GroupName := "Muse", SongName := "Supermassive Black Hole",
               ReleaseDate := 2006, Text := "Ooh baby", Link := "https://example.org/smbh",
               CreatedAt := 10, UpdatedAt := 10 }],
    seq := 1, now := 20 }

end gorm

/-! ## Histories of repository calls -/

namespace repository

open gorm

/-- One call in a history of the repository: `AddSong(s)` made when the clock reads `now`, or
`DeleteSong(id)`. -/
inductive Op where
  | add (now : Time) (s : Song)
  | delete (id : String)
deriving DecidableEq, Repr

/-- The store reached by a history, with the record of its calls: each key returned by an
`AddSong` paired with the song that was passed, and the keys passed to `DeleteSong`. -/
structure History where
  db : DB := {}
  added : List (Nat × Song) := []
  deleted : List Nat := []
deriving DecidableEq, Repr

/-- Extends a history by one call.  The call is admitted when it is an `AddSong` of a song with
a zero `ID` that returns nil, or a `DeleteSong` that returns nil on a key returned by an
earlier `AddSong` and not passed to an earlier `DeleteSong`; otherwise there is no
extension. -/
def History.step (h : History) : Op → Option History
  | .add now s =>
    if s.ID = 0 then
      match songRepository.AddSong s { h.db with now := now } with
      | ((s', none), db') => some { db := db', added := h.added ++ [(s'.ID, s)], deleted := h.deleted }
      | ((_, some _), _) => none
    else none
  | .delete id =>
    match parseID id with
    | none => none
    | some k =>
      if k ∈ h.added.map Prod.fst ∧ k ∉ h.deleted then
        match songRepository.DeleteSong id h.db with
        | (none, db') => some { db := db', added := h.added, deleted := h.deleted ++ [k] }
        | (some _, _) => none
      else none

/-- Extends a history by a sequence of calls, each admitted in turn. -/
def History.run : List Op → History → Option History
  | [], h => some h
  | op :: ops, h =>
    match h.step op with
    | some h' => History.run ops h'
    | none => none

/-- Number of `AddSong` calls in a sequence. -/
def adds (ops : List Op) : Nat :=
  ops.countP fun op => match op with
    | .add _ _ => true
    | .delete _ => false

/-- Number of `DeleteSong` calls in a sequence. -/
def deletes (ops : List Op) : Nat :=
  ops.countP fun op => match op with
    | .add _ _ => false
    | .delete _ => true

/-- What every history from the empty store satisfies: keys are stored once, the stored keys
are the returned keys not yet deleted, no key exceeds the counter, and each row carries the
fields of the song added under its key. -/
structure History.Inv (h : History) : Prop where
  nodupKeys : h.db.keys.Nodup
  memKeys : ∀ k, k ∈ h.db.keys ↔ k ∈ h.added.map Prod.fst ∧ k ∉ h.deleted
  count : h.db.rows.length + h.deleted.length = h.added.length
  bound : ∀ k ∈ h.added.map Prod.fst, k ≤ h.db.seq
  nodupAdded : (h.added.map Prod.fst).Nodup
  deletedAdded : ∀ k ∈ h.deleted, k ∈ h.added.map Prod.fst
  fields : ∀ r ∈ h.db.rows, ∃ s, (r.ID, s) ∈ h.added ∧ r.GroupName = s.GroupName ∧
    r.SongName = s.SongName ∧ r.ReleaseDate = s.ReleaseDate ∧ r.Text = s.Text ∧
    r.Link = s.Link

end repository

/-! ## Probes for the repository interface -/

namespace repository

/-- A call received by a `SongRepository`, with its arguments. -/
inductive Call where
  | GetSongs
  | GetSongByID (id : String)
  | AddSong (song : Song)
  | UpdateSong (id : String) (song : Song)
  | DeleteSong (id : String)
deriving DecidableEq, Repr

/-- An implementation of `SongRepository` that appends every call it receives to a log and
answers it as `repo` does. -/
def recording {σ : Type} (repo : SongRepository σ) : SongRepository (σ × List Call) where
  GetSongs := fun st =>
    ((repo.GetSongs st.1).1, ((repo.GetSongs st.1).2, st.2 ++ [.GetSongs]))
  GetSongByID := fun id st =>
    ((repo.GetSongByID id st.1).1, ((repo.GetSongByID id st.1).2, st.2 ++ [.GetSongByID id]))
  AddSong := fun song st =>
    ((repo.AddSong song st.1).1, ((repo.AddSong song st.1).2, st.2 ++ [.AddSong song]))
  UpdateSong := fun id song st =>
    ((repo.UpdateSong id song st.1).1,
      ((repo.UpdateSong id song st.1).2, st.2 ++ [.UpdateSong id song]))
  DeleteSong := fun id st =>
    ((repo.DeleteSong id st.1).1, ((repo.DeleteSong id st.1).2, st.2 ++ [.DeleteSong id]))

/-- An implementation of `SongRepository` whose every call fails with `err`, as a store that
cannot be reached does. -/
def failing (err : GoError) : SongRepository Unit where
  GetSongs := fun st => (([], some err), st)
  GetSongByID := fun _ st => ((none, some err), st)
  AddSong := fun song st => ((song, some err), st)
  UpdateSong := fun _ song st => ((song, some err), st)
  DeleteSong := fun _ st => (some err, st)

end repository

/-! ## Lemmas about the table -/

namespace gorm

theorem whereID_of_parse {id : String} {k : Nat} (h : parseID id = some k) (r : Song) :
    whereID id r = (r.ID == k) := by
  unfold whereID
  rw [h]
  by_cases hk : r.ID = k
  · subst hk; simp
  · have hk' : ¬ k = r.ID := fun e => hk e.symm
    simp [hk, hk']

theorem find_map_keep_key (rows : List Song) (f : Song → Song) (k : Nat)
    (hf : ∀ r, (f r).ID = r.ID) :
    (rows.map f).find? (fun r => r.ID == k) = (rows.find? fun r => r.ID == k).map f := by
  rw [List.find?_map]
  congr 2
  funext r
  simp [hf]

theorem map_eq_self_of_absent (rows : List Song) (p : Song → Bool) (f : Song → Song)
    (h : ∀ r ∈ rows, p r = false) :
    (rows.map fun r => if p r then f r else r) = rows := by
  induction rows with
  | nil => rfl
  | cons r rs ih =>
    have hr : p r = false := h r (List.mem_cons_self r rs)
    have hrs : ∀ x ∈ rs, p x = false := fun x hx => h x (List.mem_cons_of_mem r hx)
    simp [hr, ih hrs]

theorem any_false_of_absent (rows : List Song) (p : Song → Bool)
    (h : ∀ r ∈ rows, p r = false) : rows.any p = false := by
  induction rows with
  | nil => rfl
  | cons r rs ih =>
    have hr : p r = false := h r (List.mem_cons_self r rs)
    have hrs : ∀ x ∈ rs, p x = false := fun x hx => h x (List.mem_cons_of_mem r hx)
    simp [hr, ih hrs]

theorem get_isSome_iff_mem_keys (db : DB) (k : Nat) : (db.get k).isSome ↔ k ∈ db.keys := by
  simp only [DB.get, DB.keys, List.find?_isSome, List.mem_map]
  constructor
  · rintro ⟨r, hr, hk⟩
    exact ⟨r, hr, by simpa using hk⟩
  · rintro ⟨r, hr, hk⟩
    exact ⟨r, hr, by simpa using hk⟩

theorem le_maxKey (rows : List Song) : ∀ r ∈ rows, r.ID ≤ maxKey rows := by
  induction rows with
  | nil => intro r hr; cases hr
  | cons x xs ih =>
    intro r hr
    have hcons : maxKey (x :: xs) = max x.ID (maxKey xs) := rfl
    rw [hcons]
    rcases List.mem_cons.mp hr with h | h
    · subst h; exact le_max_left _ _
    · exact le_trans (ih r h) (le_max_right _ _)

theorem absent_of_not_mem_keys (db : DB) (id : String) (k : Nat)
    (hid : parseID id = some k) (hk : k ∉ db.keys) : db.absent id := by
  intro r hr
  rw [whereID_of_parse hid]
  have hne : r.ID ≠ k := by
    intro e
    apply hk
    rw [← e]
    exact List.mem_map_of_mem (fun x => x.ID) hr
  simp [hne]

theorem First_of_absent (db : DB) (id : String) (h : db.absent id) :
    db.First id = ({}, some .ErrRecordNotFound) := by
  have hfind : db.rows.find? (whereID id) = none := by
    rw [List.find?_eq_none]
    intro r hr
    simp [h r hr]
  simp [DB.First, hfind]

theorem absent_after_Delete (db : DB) (id : String) : (db.Delete id).2.absent id := by
  intro r hr
  simp only [DB.Delete, List.mem_filter] at hr
  simpa using hr.2

end gorm

/-! ## Merge update -/

namespace repository

open gorm

/-- C1: updating a stored record with `Song{SongName: X}`, `X` non-empty, returns no error,
leaves under the same key a record with `song_name = X` and with `group_name`, `text`, `link`,
`release_date` and `id` as before, and leaves the record under every other key as it was. -/
theorem UpdateSong_song_name_only (db : DB) (id : String) (k : Nat) (r : Song) (X : String)
    (hid : parseID id = some k) (hr : db.get k = some r) (hX : X ≠ "") :
    (songRepository.UpdateSong id { SongName := X } db).1.2 = none ∧
    (∃ r', (songRepository.UpdateSong id { SongName := X } db).2.get k = some r' ∧
      r'.SongName = X ∧ r'.GroupName = r.GroupName ∧ r'.Text = r.Text ∧ r'.Link = r.Link ∧
      r'.ReleaseDate = r.ReleaseDate ∧ r'.ID = r.ID) ∧
    ∀ k', k' ≠ k →
      (songRepository.UpdateSong id { SongName := X } db).2.get k' = db.get k' := by
  have hstep : songRepository.UpdateSong id { SongName := X } db =
      (({ SongName := X }, none),
        { db with rows := db.rows.map fun x =>
            if whereID id x then assign db.now { SongName := X } x else x }) := by
    simp [songRepository.UpdateSong, DB.Updates]
  have hkey : ∀ x : Song,
      (if whereID id x then assign db.now { SongName := X } x else x).ID = x.ID := by
    intro x
    by_cases hx : whereID id x <;> simp [hx, assign]
  rw [hstep]
  refine ⟨rfl, ?_, ?_⟩
  · have hrk : whereID id r = true := by
      rw [whereID_of_parse hid]
      have := List.find?_some hr
      simpa using this
    refine ⟨assign db.now { SongName := X } r, ?_, ?_⟩
    · have h := find_map_keep_key db.rows
        (fun x => if whereID id x then assign db.now { SongName := X } x else x) k hkey
      simp only [DB.get] at hr ⊢
      rw [h, hr]
      simp [hrk]
    · simp [assign, hX]
  · intro k' hk'
    have h := find_map_keep_key db.rows
      (fun x => if whereID id x then assign db.now { SongName := X } x else x) k' hkey
    simp only [DB.get]
    rw [h]
    cases hfind : db.rows.find? (fun x => x.ID == k') with
    | none => rfl
    | some x =>
      have hxk : x.ID = k' := by simpa using List.find?_some hfind
      have hx : whereID id x = false := by
        rw [whereID_of_parse hid]
        simp [hxk, hk']
      simp [hx]

/-- Witness of C1 on `oneSong`: renaming the song under key `1`. -/
theorem UpdateSong_song_name_only_witness :
    parseID "1" = some 1 ∧ "Starlight" ≠ "" ∧
    (songRepository.UpdateSong "1" { SongName := "Starlight" } oneSong).1.2 = none ∧
    ∃ r', (songRepository.UpdateSong "1" { SongName := "Starlight" } oneSong).2.get 1 = some r' ∧
      r'.SongName = "Starlight" ∧ r'.GroupName = "Muse" :=
  have h := UpdateSong_song_name_only oneSong "1" 1
    { ID := 1, GroupName := "Muse", SongName := "Supermassive Black Hole",
      ReleaseDate := 2006, Text := "Ooh baby", Link := "https://example.org/smbh",
      CreatedAt := 10, UpdatedAt := 10 } "Starlight" (by decide) (by decide) (by decide)
  ⟨by decide, by decide, h.1,
    match h.2.1 with
    | ⟨r', hget, hname, hgroup, _⟩ => ⟨r', hget, hname, hgroup⟩⟩

/-! ## Absent keys -/

/-- C2 fails as stated: on `oneSong`, `"2"` is the key of no record, and `UpdateSong("2", _)`
returns nil, from the repository and from the service alike. -/
theorem UpdateSong_absent_returns_nil :
    oneSong.absent "2" ∧
    (songRepository.UpdateSong "2" { SongName := "Starlight" } oneSong).1.2 = none ∧
    ((service.NewSongService NewSongRepository).UpdateSong "2" { SongName := "Starlight" }
      oneSong).1.2 = none ∧
    (songRepository.UpdateSong "2" { SongName := "Starlight" } oneSong).1.2
      ≠ some GoError.ErrRecordNotFound := by
  decide

/-- C2, amended: when `id` is a decimal numeral whose number is the key of no stored record,
`UpdateSong(id, song)` returns nil for every `song`, leaves the argument and the store as they
were, and so does `SongService.UpdateSong`; no not-found error is produced. -/
theorem UpdateSong_absent_noop (db : DB) (id : String) (k : Nat) (song : Song)
    (hid : parseID id = some k) (hk : k ∉ db.keys) :
    songRepository.UpdateSong id song db = ((song, none), db) ∧
    (service.NewSongService NewSongRepository).UpdateSong id song db = ((song, none), db) := by
  have h : db.absent id := absent_of_not_mem_keys db id k hid hk
  have hany : db.rows.any (whereID id) = false := any_false_of_absent db.rows _ h
  have hmap := map_eq_self_of_absent db.rows (whereID id) (assign db.now song) h
  have hstep : songRepository.UpdateSong id song db = ((song, none), db) := by
    simp [songRepository.UpdateSong, DB.Updates, hany, hmap]
  exact ⟨hstep, hstep⟩

/-- Witness of the amended C2 on `oneSong` and the absent key `"2"`. -/
theorem UpdateSong_absent_noop_witness :
    parseID "2" = some 2 ∧ 2 ∉ oneSong.keys ∧
    songRepository.UpdateSong "2" { SongName := "Starlight" } oneSong
      = (({ SongName := "Starlight" }, none), oneSong) :=
  ⟨by decide, by decide,
    (UpdateSong_absent_noop oneSong "2" 2 { SongName := "Starlight" } (by decide)
      (by decide)).1⟩

/-- C3 fails as stated: on `oneSong`, `"2"` is the key of no record, and `DeleteSong("2")`
returns nil, from the repository and from the service alike. -/
theorem DeleteSong_absent_returns_nil :
    oneSong.absent "2" ∧
    (songRepository.DeleteSong "2" oneSong).1 = none ∧
    ((service.NewSongService NewSongRepository).DeleteSong "2" oneSong).1 = none ∧
    (songRepository.DeleteSong "2" oneSong).1 ≠ some GoError.ErrRecordNotFound := by
  decide

/-- C3, amended: when `id` is a decimal numeral whose number is the key of no stored record,
`DeleteSong(id)` returns nil and leaves the store as it was, and so does
`SongService.DeleteSong`; no not-found error is produced. -/
theorem DeleteSong_absent_noop (db : DB) (id : String) (k : Nat)
    (hid : parseID id = some k) (hk : k ∉ db.keys) :
    songRepository.DeleteSong id db = (none, db) ∧
    (service.NewSongService NewSongRepository).DeleteSong id db = (none, db) := by
  have h : db.absent id := absent_of_not_mem_keys db id k hid hk
  have hfilter : db.rows.filter (fun r => !whereID id r) = db.rows := by
    rw [List.filter_eq_self]
    intro r hr
    simp [h r hr]
  have hstep : songRepository.DeleteSong id db = (none, db) := by
    simp [songRepository.DeleteSong, DB.Delete, hfilter]
  exact ⟨hstep, hstep⟩

/-- Witness of the amended C3 on `oneSong` and the absent key `"2"`. -/
theorem DeleteSong_absent_noop_witness :
    parseID "2" = some 2 ∧ 2 ∉ oneSong.keys ∧
    songRepository.DeleteSong "2" oneSong = (none, oneSong) :=
  ⟨by decide, by decide, (DeleteSong_absent_noop oneSong "2" 2 (by decide) (by decide)).1⟩

/-! ## Keys under update -/

/-- C4 fails as stated: on `oneSong`, `UpdateSong("1", Song{ID: 2})` returns nil, after which
no record is stored under key `1` and the keys of the store are `[2]` instead of `[1]`. -/
theorem UpdateSong_rewrites_key :
    oneSong.keys = [1] ∧
    (songRepository.UpdateSong "1" { ID := 2 } oneSong).1.2 = none ∧
    (songRepository.UpdateSong "1" { ID := 2 } oneSong).2.get 1 = none ∧
    (songRepository.UpdateSong "1" { ID := 2 } oneSong).2.keys = [2] := by
  decide

/-- C4, amended: for a key present in the store and a `Song` argument whose own `ID` is zero or
equal to that key, `UpdateSong` returns nil, the store still has a record under the key, and
the keys of the store are the same as before the call. -/
theorem UpdateSong_keeps_keys (db : DB) (id : String) (k : Nat) (s : Song)
    (hid : parseID id = some k) (hk : k ∈ db.keys) (hs : s.ID = 0 ∨ s.ID = k) :
    (songRepository.UpdateSong id s db).1.2 = none ∧
    ((songRepository.UpdateSong id s db).2.get k).isSome ∧
    (songRepository.UpdateSong id s db).2.keys = db.keys := by
  have hclash : db.rows.any (fun r => !whereID id r && r.ID == s.ID) = false ∨ s.ID = 0 := by
    rcases hs with h0 | hsk
    · exact Or.inr h0
    · left
      apply any_false_of_absent
      intro r _
      rw [whereID_of_parse hid, hsk]
      cases r.ID == k <;> rfl
  have hstep : songRepository.UpdateSong id s db =
      ((s, none),
        { db with rows := db.rows.map fun x => if whereID id x then assign db.now s x else x }) := by
    rcases hclash with h | h <;> simp [songRepository.UpdateSong, DB.Updates, h]
  have hkey : ∀ x : Song, (if whereID id x then assign db.now s x else x).ID = x.ID := by
    intro x
    by_cases hx : whereID id x
    · have hxk : x.ID = k := by
        rw [whereID_of_parse hid] at hx
        simpa using hx
      rcases hs with h0 | hsk <;> simp [hx, assign, *]
    · simp [hx]
  have hkeys : (songRepository.UpdateSong id s db).2.keys = db.keys := by
    rw [hstep]
    simp only [DB.keys, List.map_map]
    apply List.map_congr_left
    intro x _
    exact hkey x
  refine ⟨by rw [hstep], ?_, hkeys⟩
  rw [get_isSome_iff_mem_keys, hkeys]
  exact hk

/-- Witness of the amended C4 on `oneSong`: an update carrying the key itself. -/
theorem UpdateSong_keeps_keys_witness :
    parseID "1" = some 1 ∧ 1 ∈ oneSong.keys ∧
    (songRepository.UpdateSong "1" { ID := 1, Text := "la" } oneSong).2.keys = oneSong.keys :=
  ⟨by decide, by decide,
    (UpdateSong_keeps_keys oneSong "1" 1 { ID := 1, Text := "la" } (by decide) (by decide)
      (by decide)).2.2⟩

/-! ## Reading back -/

/-- C5: when `AddSong(s)` with a zero `ID` returns nil and leaves key `k` in `s`,
`GetSongByID(k)` on the resulting store returns no error and a record with `id = k` whose
`group_name`, `song_name`, `release_date`, `text` and `link` are those of `s`; the record is
`s` as `AddSong` left it. -/
theorem AddSong_then_GetSongByID (db db' : DB) (s s' : Song) (id : String)
    (hzero : s.ID = 0) (hadd : songRepository.AddSong s db = ((s', none), db'))
    (hid : parseID id = some s'.ID) :
    ∃ r, songRepository.GetSongByID id db' = ((some r, none), db') ∧ r = s' ∧
      r.ID = s'.ID ∧ r.GroupName = s.GroupName ∧ r.SongName = s.SongName ∧
      r.ReleaseDate = s.ReleaseDate ∧ r.Text = s.Text ∧ r.Link = s.Link := by
  have hst : (stamp db.now s).ID = 0 := hzero
  simp only [songRepository.AddSong, DB.Create, hst, if_true, Prod.mk.injEq, and_true] at hadd
  obtain ⟨hs', hdb'⟩ := hadd
  have hkey : s'.ID = max db.seq (maxKey db.rows) + 1 := by rw [← hs']
  have hmiss : db.rows.find? (whereID id) = none := by
    rw [List.find?_eq_none]
    intro r hr
    rw [whereID_of_parse hid, hkey]
    have h1 := le_maxKey db.rows r hr
    have h2 : maxKey db.rows ≤ max db.seq (maxKey db.rows) := le_max_right _ _
    have : r.ID ≠ max db.seq (maxKey db.rows) + 1 := by omega
    simp [this]
  have hhit : whereID id s' = true := by
    rw [whereID_of_parse hid]; simp
  have hfind : db'.rows.find? (whereID id) = some s' := by
    rw [← hdb']
    simp only [List.find?_append, hmiss, Option.none_or]
    rw [hs']
    simp [List.find?, hhit]
  refine ⟨s', ?_, rfl, rfl, ?_⟩
  · simp [songRepository.GetSongByID, DB.First, hfind]
  · rw [← hs']
    simp [stamp]

/-- Witness of C5: adding `{Muse, Supermassive Black Hole}` to an empty store and reading id
`"1"` yields the song name `"Supermassive Black Hole"`. -/
theorem AddSong_then_GetSongByID_witness :
    (songRepository.GetSongByID "1"
      (songRepository.AddSong { GroupName := "Muse", SongName := "Supermassive Black Hole" }
        {}).2).1.2 = none ∧
    ∃ r, songRepository.GetSongByID "1"
        (songRepository.AddSong { GroupName := "Muse", SongName := "Supermassive Black Hole" }
          {}).2
        = ((some r, none),
          (songRepository.AddSong { GroupName := "Muse", SongName := "Supermassive Black Hole" }
            {}).2) ∧
      r.ID = 1 ∧ r.SongName = "Supermassive Black Hole" :=
  ⟨by decide,
    match AddSong_then_GetSongByID {} _
      { GroupName := "Muse", SongName := "Supermassive Black Hole" } _ "1" rfl rfl
      (by decide) with
    | ⟨r, hget, _, hkey, _, hname, _⟩ => ⟨r, hget, hkey, hname⟩⟩

/-- C7: for `id` a decimal numeral, `GetSongByID(id)` returns a nil song together with
`gorm.ErrRecordNotFound`, and no other error, on a store in which the number of `id` is the
key of no record, and on the store left by `DeleteSong(id)` returning nil on a store that
held a record under that key. -/
theorem GetSongByID_not_found (db : DB) (id : String) (k : Nat)
    (hid : parseID id = some k)
    (h : k ∉ db.keys ∨
      ∃ db0 : DB, k ∈ db0.keys ∧ songRepository.DeleteSong id db0 = (none, db)) :
    songRepository.GetSongByID id db = ((none, some GoError.ErrRecordNotFound), db) := by
  have habs : db.absent id := by
    rcases h with h | ⟨db0, _, hdel⟩
    · exact absent_of_not_mem_keys db id k hid h
    · have := absent_after_Delete db0 id
      have hdb : (db0.Delete id).2 = db := congrArg Prod.snd hdel
      rwa [hdb] at this
  simp [songRepository.GetSongByID, First_of_absent db id habs]

/-- Witness of C7: after `DeleteSong("1")` on `oneSong`, `GetSongByID("1")` is not found; on
`oneSong` itself, `GetSongByID("2")` is not found. -/
theorem GetSongByID_not_found_witness :
    parseID "1" = some 1 ∧ 1 ∈ oneSong.keys ∧
    (songRepository.DeleteSong "1" oneSong).1 = none ∧
    songRepository.GetSongByID "1" (songRepository.DeleteSong "1" oneSong).2
      = ((none, some GoError.ErrRecordNotFound), (songRepository.DeleteSong "1" oneSong).2) ∧
    parseID "2" = some 2 ∧ 2 ∉ oneSong.keys ∧
    songRepository.GetSongByID "2" oneSong
      = ((none, some GoError.ErrRecordNotFound), oneSong) :=
  ⟨by decide, by decide, by decide,
    GetSongByID_not_found (songRepository.DeleteSong "1" oneSong).2 "1" 1 (by decide)
      (Or.inr ⟨oneSong, by decide, rfl⟩),
    by decide, by decide,
    GetSongByID_not_found oneSong "2" 2 (by decide) (Or.inl (by decide))⟩

end repository

/-! ## Histories -/

namespace repository

open gorm

theorem filter_length_of_nodup (k : Nat) (rows : List Song) :
    (rows.map fun r => r.ID).Nodup → k ∈ (rows.map fun r => r.ID) →
    (rows.filter fun r => !(r.ID == k)).length + 1 = rows.length := by
  induction rows with
  | nil => intro _ hk; cases hk
  | cons x xs ih =>
    intro hnd hk
    rw [List.map_cons, List.nodup_cons] at hnd
    by_cases hx : x.ID = k
    · have hself : (xs.filter fun r => !(r.ID == k)) = xs := by
        rw [List.filter_eq_self]
        intro a ha
        have hne : a.ID ≠ k := by
          intro e
          apply hnd.1
          rw [hx, ← e]
          exact List.mem_map_of_mem (fun r => r.ID) ha
        simp [hne]
      simp [List.filter_cons, hx, hself]
    · have hk' : k ∈ xs.map fun r => r.ID := by
        rw [List.map_cons] at hk
        rcases List.mem_cons.mp hk with h | h
        · exact absurd h.symm hx
        · exact h
      simp [List.filter_cons, hx, ih hnd.2 hk']

theorem Inv_empty : ({} : History).Inv where
  nodupKeys := List.nodup_nil
  memKeys := by intro k; simp [DB.keys]
  count := rfl
  bound := by intro k hk; cases hk
  nodupAdded := List.nodup_nil
  deletedAdded := by intro k hk; cases hk
  fields := by intro r hr; cases hr

theorem step_add_eq (h : History) (now : Time) (s : Song) (hs : s.ID = 0) :
    h.step (.add now s) = some
      { db := { rows := h.db.rows ++
                  [{ stamp now s with ID := max h.db.seq (maxKey h.db.rows) + 1 }],
                seq := max h.db.seq (maxKey h.db.rows) + 1, now := now },
        added := h.added ++ [(max h.db.seq (maxKey h.db.rows) + 1, s)],
        deleted := h.deleted } := by
  have hst : (stamp now s).ID = 0 := hs
  simp [History.step, hs, songRepository.AddSong, DB.Create, hst]

theorem step_delete_eq (h : History) (id : String) (h' : History)
    (hstep : h.step (.delete id) = some h') :
    ∃ k, parseID id = some k ∧ k ∈ h.added.map Prod.fst ∧ k ∉ h.deleted ∧
      h' = { db := { h.db with rows := h.db.rows.filter fun r => !(r.ID == k) },
             added := h.added, deleted := h.deleted ++ [k] } := by
  simp only [History.step] at hstep
  cases hp : parseID id with
  | none => simp [hp] at hstep
  | some k =>
    simp only [hp] at hstep
    by_cases hc : k ∈ h.added.map Prod.fst ∧ k ∉ h.deleted
    · rw [if_pos hc] at hstep
      simp only [songRepository.DeleteSong, DB.Delete, Option.some.injEq] at hstep
      refine ⟨k, rfl, hc.1, hc.2, ?_⟩
      rw [← hstep]
      have hw : (fun r => !whereID id r) = fun r : Song => !(r.ID == k) := by
        funext r
        rw [whereID_of_parse hp]
      rw [hw]
    · rw [if_neg hc] at hstep
      cases hstep

theorem Inv_add (h : History) (hinv : h.Inv) (now : Time) (s : Song) :
    History.Inv
      { db := { rows := h.db.rows ++
                  [{ stamp now s with ID := max h.db.seq (maxKey h.db.rows) + 1 }],
                seq := max h.db.seq (maxKey h.db.rows) + 1, now := now },
        added := h.added ++ [(max h.db.seq (maxKey h.db.rows) + 1, s)],
        deleted := h.deleted } := by
  have hrows : ∀ k' ∈ h.db.keys, k' < max h.db.seq (maxKey h.db.rows) + 1 := by
    intro k' hk'
    simp only [DB.keys, List.mem_map] at hk'
    obtain ⟨r, hr, rfl⟩ := hk'
    have h1 := le_maxKey h.db.rows r hr
    have h2 : maxKey h.db.rows ≤ max h.db.seq (maxKey h.db.rows) := le_max_right _ _
    omega
  have hadded : ∀ k' ∈ h.added.map Prod.fst, k' < max h.db.seq (maxKey h.db.rows) + 1 := by
    intro k' hk'
    have h1 := hinv.bound k' hk'
    have h2 : h.db.seq ≤ max h.db.seq (maxKey h.db.rows) := le_max_left _ _
    omega
  have hfreshKeys : max h.db.seq (maxKey h.db.rows) + 1 ∉ h.db.keys :=
    fun hmem => Nat.lt_irrefl _ (hrows _ hmem)
  have hfreshAdded : max h.db.seq (maxKey h.db.rows) + 1 ∉ h.added.map Prod.fst :=
    fun hmem => Nat.lt_irrefl _ (hadded _ hmem)
  have hfreshDeleted : max h.db.seq (maxKey h.db.rows) + 1 ∉ h.deleted :=
    fun hmem => hfreshAdded (hinv.deletedAdded _ hmem)
  constructor
  · show ((h.db.rows ++ _).map fun r => r.ID).Nodup
    rw [List.map_append, List.nodup_append]
    refine ⟨hinv.nodupKeys, by simp, ?_⟩
    intro a ha hb
    simp only [List.map_cons, List.map_nil, List.mem_singleton] at hb
    subst hb
    exact hfreshKeys ha
  · intro k'
    show k' ∈ ((h.db.rows ++ _).map fun r => r.ID) ↔ _
    rw [List.map_append, List.mem_append, List.map_append, List.mem_append]
    have hm := hinv.memKeys k'
    simp only [DB.keys] at hm
    simp only [List.map_cons, List.map_nil, List.mem_singleton]
    constructor
    · rintro (hk | hk)
      · exact ⟨Or.inl (hm.mp hk).1, (hm.mp hk).2⟩
      · exact ⟨Or.inr hk, by rw [hk]; exact hfreshDeleted⟩
    · rintro ⟨hk | hk, hnd⟩
      · exact Or.inl (hm.mpr ⟨hk, hnd⟩)
      · exact Or.inr hk
  · show (h.db.rows ++ _).length + h.deleted.length = (h.added ++ _).length
    have := hinv.count
    simp only [List.length_append, List.length_singleton]
    omega
  · intro k' hk'
    show k' ≤ max h.db.seq (maxKey h.db.rows) + 1
    rw [List.map_append, List.mem_append] at hk'
    rcases hk' with hk' | hk'
    · exact Nat.le_of_lt (hadded k' hk')
    · simp only [List.map_cons, List.map_nil, List.mem_singleton] at hk'
      rw [hk']
  · show ((h.added ++ _).map Prod.fst).Nodup
    rw [List.map_append, List.nodup_append]
    refine ⟨hinv.nodupAdded, by simp, ?_⟩
    intro a ha hb
    simp only [List.map_cons, List.map_nil, List.mem_singleton] at hb
    subst hb
    exact hfreshAdded ha
  · intro k' hk'
    show k' ∈ (h.added ++ _).map Prod.fst
    rw [List.map_append, List.mem_append]
    exact Or.inl (hinv.deletedAdded k' hk')
  · intro r hr
    have hr' : r ∈ h.db.rows ++
        [{ stamp now s with ID := max h.db.seq (maxKey h.db.rows) + 1 }] := hr
    show ∃ s', (r.ID, s') ∈ h.added ++ _ ∧ _
    rcases List.mem_append.mp hr' with hr' | hr'
    · obtain ⟨s', hs', hf⟩ := hinv.fields r hr'
      exact ⟨s', List.mem_append.mpr (Or.inl hs'), hf⟩
    · rw [List.mem_singleton] at hr'
      subst hr'
      exact ⟨s, List.mem_append.mpr (Or.inr (List.mem_singleton.mpr rfl)),
        rfl, rfl, rfl, rfl, rfl⟩

theorem Inv_delete (h : History) (hinv : h.Inv) (k : Nat)
    (hk : k ∈ h.added.map Prod.fst) (hnd : k ∉ h.deleted) :
    History.Inv
      { db := { h.db with rows := h.db.rows.filter fun r => !(r.ID == k) },
        added := h.added, deleted := h.deleted ++ [k] } := by
  have hsub : (h.db.rows.filter fun r => !(r.ID == k)).Sublist h.db.rows :=
    List.filter_sublist _
  have hkeys : k ∈ h.db.keys := (hinv.memKeys k).mpr ⟨hk, hnd⟩
  constructor
  · show ((h.db.rows.filter _).map fun r => r.ID).Nodup
    exact List.Nodup.sublist (hsub.map _) hinv.nodupKeys
  · intro k'
    show k' ∈ ((h.db.rows.filter _).map fun r => r.ID) ↔ k' ∈ h.added.map Prod.fst ∧
      k' ∉ h.deleted ++ [k]
    have hm := hinv.memKeys k'
    simp only [DB.keys, List.mem_map] at hm
    simp only [List.mem_map, List.mem_filter, List.mem_append, List.mem_singleton]
    constructor
    · rintro ⟨r, ⟨hr, hne⟩, rfl⟩
      have := hm.mp ⟨r, hr, rfl⟩
      refine ⟨this.1, ?_⟩
      rintro (hd | he)
      · exact this.2 hd
      · simp [he] at hne
    · rintro ⟨ha, hn⟩
      have hn1 : k' ∉ h.deleted := fun hd => hn (Or.inl hd)
      have hn2 : k' ≠ k := fun he => hn (Or.inr he)
      obtain ⟨r, hr, rfl⟩ := hm.mpr ⟨ha, hn1⟩
      exact ⟨r, ⟨hr, by simp [hn2]⟩, rfl⟩
  · show (h.db.rows.filter _).length + (h.deleted ++ [k]).length = h.added.length
    have h1 := filter_length_of_nodup k h.db.rows hinv.nodupKeys hkeys
    have h2 := hinv.count
    simp only [List.length_append, List.length_singleton]
    omega
  · exact hinv.bound
  · exact hinv.nodupAdded
  · intro k' hk'
    rcases List.mem_append.mp hk' with hk' | hk'
    · exact hinv.deletedAdded k' hk'
    · rw [List.mem_singleton] at hk'
      rw [hk']
      exact hk
  · intro r hr
    exact hinv.fields r (hsub.subset hr)

theorem run_Inv (ops : List Op) : ∀ h h' : History, h.Inv → History.run ops h = some h' →
    h'.Inv ∧ h'.added.length = h.added.length + adds ops ∧
      h'.deleted.length = h.deleted.length + deletes ops := by
  induction ops with
  | nil =>
    intro h h' hinv hrun
    simp only [History.run, Option.some.injEq] at hrun
    subst hrun
    exact ⟨hinv, rfl, rfl⟩
  | cons op ops ih =>
    intro h h' hinv hrun
    simp only [History.run] at hrun
    cases hstep : h.step op with
    | none => simp [hstep] at hrun
    | some h1 =>
      simp only [hstep] at hrun
      cases op with
      | add now s =>
        have hs : s.ID = 0 := by
          by_contra hne
          simp [History.step, hne] at hstep
        rw [step_add_eq h now s hs, Option.some.injEq] at hstep
        have hinv1 : h1.Inv := hstep ▸ Inv_add h hinv now s
        obtain ⟨hi, ha, hd⟩ := ih h1 h' hinv1 hrun
        refine ⟨hi, ?_, ?_⟩
        · rw [ha, ← hstep]
          simp [adds, List.countP_cons]
          omega
        · rw [hd, ← hstep]
          simp [deletes, List.countP_cons]
      | delete id =>
        obtain ⟨k, _, hk, hnd, heq⟩ := step_delete_eq h id h1 hstep
        have hinv1 : h1.Inv := heq ▸ Inv_delete h hinv k hk hnd
        obtain ⟨hi, ha, hd⟩ := ih h1 h' hinv1 hrun
        refine ⟨hi, ?_, ?_⟩
        · rw [ha, heq]
          simp [adds, List.countP_cons]
        · rw [hd, heq]
          simp [deletes, List.countP_cons]
          omega

/-- C6: after any history from the empty store made of `N` successful `AddSong` calls with a
zero `ID` and `M` successful `DeleteSong` calls on distinct keys returned by earlier adds,
`GetSongs` returns no error and exactly `N - M` records; their keys are distinct, they are
exactly the returned keys not deleted, each key was returned once, and each record has the
`group_name`, `song_name`, `release_date`, `text` and `link` of the song added under its
key. -/
theorem GetSongs_after_history (ops : List Op) (h : History)
    (hrun : History.run ops {} = some h) :
    ∃ songs, songRepository.GetSongs h.db = ((songs, none), h.db) ∧
      songs.length = adds ops - deletes ops ∧
      (songs.map fun r => r.ID).Nodup ∧
      (h.added.map Prod.fst).Nodup ∧
      (∀ k, k ∈ (songs.map fun r => r.ID) ↔ k ∈ h.added.map Prod.fst ∧ k ∉ h.deleted) ∧
      ∀ r ∈ songs, ∃ s, (r.ID, s) ∈ h.added ∧ r.GroupName = s.GroupName ∧
        r.SongName = s.SongName ∧ r.ReleaseDate = s.ReleaseDate ∧ r.Text = s.Text ∧
        r.Link = s.Link := by
  obtain ⟨hinv, ha, hd⟩ := run_Inv ops {} h Inv_empty hrun
  refine ⟨h.db.rows, by simp [songRepository.GetSongs, DB.Find], ?_, hinv.nodupKeys,
    hinv.nodupAdded, hinv.memKeys, hinv.fields⟩
  have hc := hinv.count
  have ha' : h.added.length = adds ops := by simpa using ha
  have hd' : h.deleted.length = deletes ops := by simpa using hd
  omega

/-- Witness of C6: one add gives a list of length 1 with the added song name; one add followed
by `DeleteSong("1")` gives a list of length 0. -/
theorem GetSongs_after_history_witness :
    ((History.run [.add 3 { GroupName := "Muse", SongName := "Supermassive Black Hole" }]
        {}).map fun h => (songRepository.GetSongs h.db).1.1.map fun r => r.SongName)
      = some ["Supermassive Black Hole"] ∧
    (∃ h, History.run [.add 3 { GroupName := "Muse", SongName := "Supermassive Black Hole" },
        .delete "1"] {} = some h ∧
      ∃ songs, songRepository.GetSongs h.db = ((songs, none), h.db) ∧ songs.length = 0) :=
  ⟨by decide,
    ⟨_, rfl,
      match GetSongs_after_history
        [.add 3 { GroupName := "Muse", SongName := "Supermassive Black Hole" }, .delete "1"]
        _ rfl with
      | ⟨songs, hget, hlen, _⟩ => ⟨songs, hget, hlen⟩⟩⟩

end repository

/-! ## The service -/

namespace service

open repository

/-- C8: for every implementation `repo` of `SongRepository`, each of the five `SongService`
methods is the repository method of the same name: same arguments, same returned value and
error, same effect on the state.  Run over a repository that logs its calls, each service
method adds exactly one entry to the log: the method of the same name with the same
arguments. -/
theorem SongService_forwards {σ : Type} (repo : SongRepository σ) :
    ((NewSongService repo).GetSongs = repo.GetSongs ∧
      (∀ id, (NewSongService repo).GetSongByID id = repo.GetSongByID id) ∧
      (∀ song, (NewSongService repo).AddSong song = repo.AddSong song) ∧
      (∀ id song, (NewSongService repo).UpdateSong id song = repo.UpdateSong id song) ∧
      (∀ id, (NewSongService repo).DeleteSong id = repo.DeleteSong id)) ∧
    (∀ st log,
      (NewSongService (recording repo)).GetSongs (st, log) =
        ((repo.GetSongs st).1, ((repo.GetSongs st).2, log ++ [Call.GetSongs]))) ∧
    (∀ id st log,
      (NewSongService (recording repo)).GetSongByID id (st, log) =
        ((repo.GetSongByID id st).1, ((repo.GetSongByID id st).2, log ++ [Call.GetSongByID id]))) ∧
    (∀ song st log,
      (NewSongService (recording repo)).AddSong song (st, log) =
        ((repo.AddSong song st).1, ((repo.AddSong song st).2, log ++ [Call.AddSong song]))) ∧
    (∀ id song st log,
      (NewSongService (recording repo)).UpdateSong id song (st, log) =
        ((repo.UpdateSong id song st).1,
          ((repo.UpdateSong id song st).2, log ++ [Call.UpdateSong id song]))) ∧
    (∀ id st log,
      (NewSongService (recording repo)).DeleteSong id (st, log) =
        ((repo.DeleteSong id st).1, ((repo.DeleteSong id st).2, log ++ [Call.DeleteSong id]))) :=
  ⟨⟨rfl, fun _ => rfl, fun _ => rfl, fun _ _ => rfl, fun _ => rfl⟩,
    fun _ _ => rfl, fun _ _ _ => rfl, fun _ _ _ => rfl, fun _ _ _ _ => rfl, fun _ _ _ => rfl⟩

end service

/-! ## The handlers -/

namespace handler

open repository service gorm

/-- C9: in each of the five handlers, whatever error the service call returns, the handler
responds with status 500 and an `ErrorResponse` whose `Details` is the error's message. -/
theorem handlers_answer_500 {σ : Type} (svc : SongService σ) (c : Context) (st : σ)
    (err : GoError) :
    ((svc.GetSongs st).1.2 = some err →
      (GetSongs svc c st).1 =
        ⟨500, .failure { Error := "Failed to retrieve songs", Details := err.Error }⟩) ∧
    ((svc.GetSongByID c.id st).1.2 = some err →
      (GetSongByID svc c st).1 =
        ⟨500, .failure { Error := "Failed to retrieve song", Details := err.Error }⟩) ∧
    (∀ song, c.body = .ok song → (svc.AddSong song st).1.2 = some err →
      (AddSong svc c st).1 =
        ⟨500, .failure { Error := "Failed to add song", Details := err.Error }⟩) ∧
    (∀ song, c.body = .ok song → (svc.UpdateSong c.id song st).1.2 = some err →
      (UpdateSong svc c st).1 =
        ⟨500, .failure { Error := "Failed to update song", Details := err.Error }⟩) ∧
    ((svc.DeleteSong c.id st).1 = some err →
      (DeleteSong svc c st).1 =
        ⟨500, .failure { Error := "Failed to delete song", Details := err.Error }⟩) := by
  refine ⟨?_, ?_, ?_, ?_, ?_⟩
  · intro h
    unfold GetSongs
    rcases hcall : svc.GetSongs st with ⟨⟨songs, e⟩, st'⟩
    rw [hcall] at h
    cases h
    rfl
  · intro h
    unfold GetSongByID
    rcases hcall : svc.GetSongByID c.id st with ⟨⟨song, e⟩, st'⟩
    rw [hcall] at h
    cases h
    simp only [hcall]
    rfl
  · intro song hbody h
    unfold AddSong
    rw [hbody]
    rcases hcall : svc.AddSong song st with ⟨⟨song', e⟩, st'⟩
    rw [hcall] at h
    cases h
    simp only [hcall]
    rfl
  · intro song hbody h
    unfold UpdateSong
    rw [hbody]
    rcases hcall : svc.UpdateSong c.id song st with ⟨⟨song', e⟩, st'⟩
    rw [hcall] at h
    cases h
    simp only [hcall]
    rfl
  · intro h
    unfold DeleteSong
    rcases hcall : svc.DeleteSong c.id st with ⟨e, st'⟩
    rw [hcall] at h
    cases h
    simp only [hcall]
    rfl

/-- Witness of C9: the five handlers over a repository that fails with `connection refused`,
and `GetSongByID` over the GORM repository for a key that is not stored, where the error is
`gorm.ErrRecordNotFound`. -/
theorem handlers_answer_500_witness :
    (GetSongs (NewSongService (failing (.other "connection refused"))) {} ()).1 =
      ⟨500, .failure { Error := "Failed to retrieve songs", Details := "connection refused" }⟩ ∧
    (GetSongByID (NewSongService (failing (.other "connection refused"))) { id := "1" } ()).1 =
      ⟨500, .failure { Error := "Failed to retrieve song", Details := "connection refused" }⟩ ∧
    (AddSong (NewSongService (failing (.other "connection refused")))
        { body := .ok { SongName := "Starlight" } } ()).1 =
      ⟨500, .failure { Error := "Failed to add song", Details := "connection refused" }⟩ ∧
    (UpdateSong (NewSongService (failing (.other "connection refused")))
        { id := "1", body := .ok { SongName := "Starlight" } } ()).1 =
      ⟨500, .failure { Error := "Failed to update song", Details := "connection refused" }⟩ ∧
    (DeleteSong (NewSongService (failing (.other "connection refused"))) { id := "1" } ()).1 =
      ⟨500, .failure { Error := "Failed to delete song", Details := "connection refused" }⟩ ∧
    (GetSongByID (NewSongService NewSongRepository) { id := "2" } oneSong).1 =
      ⟨500, .failure { Error := "Failed to retrieve song", Details := "record not found" }⟩ :=
  ⟨(handlers_answer_500 (NewSongService (failing (.other "connection refused"))) {} ()
      (.other "connection refused")).1 rfl,
    (handlers_answer_500 (NewSongService (failing (.other "connection refused")))
      { id := "1" } () (.other "connection refused")).2.1 rfl,
    (handlers_answer_500 (NewSongService (failing (.other "connection refused")))
      { body := .ok { SongName := "Starlight" } } () (.other "connection refused")).2.2.1
      { SongName := "Starlight" } rfl rfl,
    (handlers_answer_500 (NewSongService (failing (.other "connection refused")))
      { id := "1", body := .ok { SongName := "Starlight" } } ()
      (.other "connection refused")).2.2.2.1 { SongName := "Starlight" } rfl rfl,
    (handlers_answer_500 (NewSongService (failing (.other "connection refused")))
      { id := "1" } () (.other "connection refused")).2.2.2.2 rfl,
    (handlers_answer_500 (NewSongService NewSongRepository) { id := "2" } oneSong
      .ErrRecordNotFound).2.1 (by decide)⟩

/-- C10: when the request body binds to a `Song` and the service `AddSong` call returns nil,
the `AddSong` handler responds with status 201 and a `SuccessResponse` whose `Data` is the
song as the service call left it.  Over the GORM repository, whenever the call returns nil the
song it leaves has the `group_name`, `song_name`, `release_date`, `text` and `link` that were
bound, a non-zero key when the bound `ID` was zero, and the current time in each timestamp
that was bound as zero. -/
theorem AddSong_answers_201 {σ : Type} (svc : SongService σ) (c : Context) (st st' : σ)
    (song song' : Song) (hbind : c.body = .ok song)
    (hcall : svc.AddSong song st = ((song', none), st')) :
    AddSong svc c st = (⟨201, .success { Data := .song song' }⟩, st') ∧
    ∀ (db db' : DB) (left : Song),
      (NewSongService NewSongRepository).AddSong song db = ((left, none), db') →
      AddSong (NewSongService NewSongRepository) c db =
        (⟨201, .success { Data := .song left }⟩, db') ∧
      left.GroupName = song.GroupName ∧ left.SongName = song.SongName ∧
      left.ReleaseDate = song.ReleaseDate ∧ left.Text = song.Text ∧ left.Link = song.Link ∧
      (song.ID = 0 → left.ID ≠ 0) ∧
      (song.CreatedAt = 0 → left.CreatedAt = db.now) ∧
      (song.UpdatedAt = 0 → left.UpdatedAt = db.now) := by
  have hanswer : ∀ {τ : Type} (svc0 : SongService τ) (t t' : τ) (out : Song),
      svc0.AddSong song t = ((out, none), t') →
      AddSong svc0 c t = (⟨201, .success { Data := .song out }⟩, t') := by
    intro τ svc0 t t' out h0
    unfold AddSong
    rw [hbind]
    simp only [h0]
    rfl
  refine ⟨hanswer svc st st' song' hcall, ?_⟩
  intro db db' left hadd
  refine ⟨hanswer _ db db' left hadd, ?_⟩
  have hcreate : DB.Create db song = ((left, none), db') := hadd
  have hstampID : (stamp db.now song).ID = song.ID := rfl
  unfold DB.Create at hcreate
  simp only [hstampID] at hcreate
  by_cases hzero : song.ID = 0
  · simp only [hzero, if_true, Prod.mk.injEq, and_true] at hcreate
    obtain ⟨hleft, _⟩ := hcreate
    rw [← hleft]
    refine ⟨rfl, rfl, rfl, rfl, rfl, ?_, ?_, ?_⟩
    · intro _
      show max db.seq (maxKey db.rows) + 1 ≠ 0
      omega
    · intro h0
      show (stamp db.now song).CreatedAt = db.now
      simp [stamp, h0]
    · intro h0
      show (stamp db.now song).UpdatedAt = db.now
      simp [stamp, h0]
  · simp only [hzero, if_false] at hcreate
    by_cases htaken : (db.rows.any fun r => r.ID == song.ID) = true
    · simp [htaken] at hcreate
    · rw [if_neg htaken] at hcreate
      have hleft : stamp db.now song = left := congrArg (fun x => x.1.1) hcreate
      rw [← hleft]
      refine ⟨rfl, rfl, rfl, rfl, rfl, ?_, ?_, ?_⟩
      · intro h0
        exact absurd h0 hzero
      · intro h0
        simp [stamp, h0]
      · intro h0
        simp [stamp, h0]

/-- Witness of C10: the body `{"group_name":"Muse","song_name":"Supermassive Black Hole"}` on
an empty store, the clock reading `7`, yields 201 and the song with its name, the key `1` and
both timestamps. -/
theorem AddSong_answers_201_witness :
    (AddSong (NewSongService NewSongRepository)
        { body := .ok { GroupName := "Muse", SongName := "Supermassive Black Hole" } }
        { now := 7 }).1 =
      ⟨201, .success ⟨.song
        { ID := 1, GroupName := "Muse", SongName := "Supermassive Black Hole",
          CreatedAt := 7, UpdatedAt := 7 }⟩⟩ :=
  congrArg Prod.fst
    (AddSong_answers_201 (NewSongService NewSongRepository)
      { body := .ok { GroupName := "Muse", SongName := "Supermassive Black Hole" } }
      { now := 7 } _ { GroupName := "Muse", SongName := "Supermassive Black Hole" } _ rfl
      rfl).1

/-- C11: over the GORM repository, when the request body binds to a `Song` `p` and the service
`UpdateSong` call returns nil, the `UpdateSong` handler responds with status 200 and `Data`
equal to `p` as bound: the response does not depend on the path parameter or on the store, so
it is the same for every other request and store with the same bound song for which the call
returns nil, whether or not a record with that id exists. -/
theorem UpdateSong_answers_bound_song (c : Context) (db : DB) (p : Song)
    (hbind : c.body = .ok p)
    (hcall : ((NewSongService NewSongRepository).UpdateSong c.id p db).1.2 = none) :
    (UpdateSong (NewSongService NewSongRepository) c db).1 = ⟨200, .success ⟨.song p⟩⟩ ∧
    ∀ (c' : Context) (db' : DB), c'.body = .ok p →
      ((NewSongService NewSongRepository).UpdateSong c'.id p db').1.2 = none →
      (UpdateSong (NewSongService NewSongRepository) c' db').1 =
        (UpdateSong (NewSongService NewSongRepository) c db).1 := by
  have hone : ∀ (c0 : Context) (db0 : DB), c0.body = .ok p →
      ((NewSongService NewSongRepository).UpdateSong c0.id p db0).1.2 = none →
      (UpdateSong (NewSongService NewSongRepository) c0 db0).1 =
        ⟨200, .success ⟨.song p⟩⟩ := by
    intro c0 db0 hb hnil
    have hshape : (NewSongService NewSongRepository).UpdateSong c0.id p db0 =
        ((p, (db0.Updates c0.id p).1), (db0.Updates c0.id p).2) := rfl
    rw [hshape] at hnil
    have hnil' : (db0.Updates c0.id p).1 = none := hnil
    unfold UpdateSong
    rw [hb]
    simp only [hshape, hnil']
    rfl
  refine ⟨hone c db hbind hcall, ?_⟩
  intro c' db' hb' hnil'
  rw [hone c' db' hb' hnil', hone c db hbind hcall]

/-- Witness of C11 on `oneSong`: the body binds to `{ID: 7, SongName: "Starlight"}`; with path
id `"1"` the response carries that song, while the record is now stored under key `7` with
its old group name; with path id `"2"`, the key of no record, the response is the same. -/
theorem UpdateSong_answers_bound_song_witness :
    (UpdateSong (NewSongService NewSongRepository)
        { id := "1", body := .ok { ID := 7, SongName := "Starlight" } } oneSong).1 =
      ⟨200, .success ⟨.song { ID := 7, SongName := "Starlight" }⟩⟩ ∧
    ((UpdateSong (NewSongService NewSongRepository)
        { id := "1", body := .ok { ID := 7, SongName := "Starlight" } } oneSong).2.get 7).map
      (fun r => (r.GroupName, r.SongName)) = some ("Muse", "Starlight") ∧
    oneSong.absent "2" ∧
    (UpdateSong (NewSongService NewSongRepository)
        { id := "2", body := .ok { ID := 7, SongName := "Starlight" } } oneSong).1 =
      (UpdateSong (NewSongService NewSongRepository)
        { id := "1", body := .ok { ID := 7, SongName := "Starlight" } } oneSong).1 :=
  ⟨(UpdateSong_answers_bound_song
      { id := "1", body := .ok { ID := 7, SongName := "Starlight" } } oneSong
      { ID := 7, SongName := "Starlight" } rfl (by decide)).1,
    by decide, by decide,
    (UpdateSong_answers_bound_song
      { id := "1", body := .ok { ID := 7, SongName := "Starlight" } } oneSong
      { ID := 7, SongName := "Starlight" } rfl (by decide)).2
      { id := "2", body := .ok { ID := 7, SongName := "Starlight" } } oneSong rfl (by decide)⟩

end handler

end SongLibrary
